import Mathlib

/-!
Verification development for the bee_map repository: a telemetry session core
(MQTT envelope decoding and an append-only position log with derived views,
from src/src/MapView.tsx) and an HTTP-to-MQTT ingest bridge
(from src/backend/src/server.js).

The JavaScript/TypeScript sources are shallowly embedded: JSON values are an
inductive type, JSON.parse is a fuel-based executable parser, the mqtt/express
callbacks become pure functions from inputs (parsed body, publish outcome,
injected clock) to responses, emitted bus actions and state updates.
JSON numbers are modelled as integers; every property proved here is
insensitive to the numeric value of a coordinate or radius, only to whether
the field is a number at all.
-/

namespace BeeMap

/-- JSON values as produced by a successful JSON.parse. There is no
`undefined` constructor: `undefined` only arises from a failed member access
and is represented as `Option.none` at use sites. -/
inductive JVal where
  | jnull
  | jbool (b : Bool)
  | jnum (n : Int)
  | jstr (s : String)
  | jarr (elems : List JVal)
  | jobj (fields : List (String × JVal))

open JVal

/-- Lookup of a key in a parsed JS object. JavaScript object literals keep the
last of duplicate keys, so the last matching entry wins. -/
def jlookup (k : String) : List (String × JVal) → Option JVal
  | [] => none
  | (k', v) :: rest =>
    match jlookup k rest with
    | some r => some r
    | none => if k' = k then some v else none

/-- JavaScript member access `v.k`. Access on `null` throws a TypeError
(modelled as `Except.error`); access on a primitive yields `undefined`
(modelled as `none`); access on an object looks the key up. -/
def getProp : JVal → String → Except Unit (Option JVal)
  | .jnull, _ => .error ()
  | .jobj fs, k => .ok (jlookup k fs)
  | _, _ => .ok none

/-- JavaScript truthiness of a possibly-undefined value, as used by the
conditional-expression envelope selection in both source files. -/
def truthy : Option JVal → Bool
  | none => false
  | some .jnull => false
  | some (.jbool b) => b
  | some (.jnum n) => n != 0
  | some (.jstr s) => s != ""
  | some (.jarr _) => true
  | some (.jobj _) => true

/-- Decimal digits of a natural number, most significant first, written with
explicit fuel so that it is structural recursion and reduces in the kernel. -/
def natDigitsAux : Nat → Nat → List Char
  | 0, _ => []
  | fuel + 1, n =>
    if n < 10 then [Nat.digitChar n]
    else natDigitsAux fuel (n / 10) ++ [Nat.digitChar (n % 10)]

/-- Decimal digit string of a natural number (the JS number-to-string
conversion for the nonnegative integers this development uses). -/
def natDigits (n : Nat) : List Char := natDigitsAux (n + 1) n

/-- Decimal representation of a natural number as a string. -/
def natStr (n : Nat) : String := String.mk (natDigits n)

/-- Decimal representation of an integer as a string, as JS renders integral
numbers. -/
def intStr (i : Int) : String :=
  if i < 0 then "-" ++ natStr i.natAbs else natStr i.toNat

mutual

/-- JavaScript template-literal string conversion of a defined value. -/
def jsToStr : JVal → String
  | .jnull => "null"
  | .jbool true => "true"
  | .jbool false => "false"
  | .jnum n => intStr n
  | .jstr s => s
  | .jarr es => jsArrStr es
  | .jobj _ => "[object Object]"

/-- Comma-joined rendering of array elements, as Array.prototype.toString. -/
def jsArrStr : List JVal → String
  | [] => ""
  | [x] => jsElemStr x
  | x :: y :: xs => jsElemStr x ++ "," ++ jsArrStr (y :: xs)

/-- Rendering of one array element: null renders empty inside a join. -/
def jsElemStr : JVal → String
  | .jnull => ""
  | .jbool true => "true"
  | .jbool false => "false"
  | .jnum n => intStr n
  | .jstr s => s
  | .jarr es => jsArrStr es
  | .jobj _ => "[object Object]"

end

/-- JavaScript template-literal conversion of a possibly-undefined value:
an undefined interpolates as the literal text "undefined". -/
def jsToStrOpt : Option JVal → String
  | none => "undefined"
  | some v => jsToStr v

/-- Escape of one character inside a JSON.stringify string literal. -/
def escChar (c : Char) : List Char :=
  if c = '"' then ['\\', '"']
  else if c = '\\' then ['\\', '\\']
  else if c = '\n' then ['\\', 'n']
  else if c = '\t' then ['\\', 't']
  else if c = '\x0d' then ['\\', 'r']
  else [c]

/-- Escaped body of a JSON.stringify string literal. -/
def escStr (s : String) : String := String.mk (s.data.flatMap escChar)

mutual

/-- JSON.stringify of a parsed JSON value: compact rendering, no added
whitespace, fields in insertion order. -/
def stringify : JVal → String
  | .jnull => "null"
  | .jbool true => "true"
  | .jbool false => "false"
  | .jnum n => intStr n
  | .jstr s => "\"" ++ escStr s ++ "\""
  | .jarr es => "[" ++ strElems es ++ "]"
  | .jobj fs => "\x7b" ++ strFields fs ++ "\x7d"

/-- Comma-joined stringification of array elements. -/
def strElems : List JVal → String
  | [] => ""
  | [x] => stringify x
  | x :: y :: xs => stringify x ++ "," ++ strElems (y :: xs)

/-- Comma-joined stringification of object fields. -/
def strFields : List (String × JVal) → String
  | [] => ""
  | [(k, v)] => "\"" ++ escStr k ++ "\":" ++ stringify v
  | (k, v) :: f :: fs =>
      "\"" ++ escStr k ++ "\":" ++ stringify v ++ "," ++ strFields (f :: fs)

end

/-- Whitespace skipping as in JSON: space, tab, newline, carriage return. -/
def skipWs : List Char → List Char
  | c :: rest =>
    if c = ' ' ∨ c = '\n' ∨ c = '\t' ∨ c = '\x0d' then skipWs rest else c :: rest
  | [] => []

/-- Is the character a decimal digit. -/
def isDigitChar (c : Char) : Bool := '0' ≤ c && c ≤ '9'

/-- Numeric value of a decimal digit character. -/
def digitVal (c : Char) : Nat := c.toNat - 48

/-- Value of a most-significant-first digit string. -/
def digitsToNat (l : List Char) : Nat := l.foldl (fun a c => a * 10 + digitVal c) 0

/-- Unescape of one character after a backslash in a JSON string literal.
Hex and unicode escapes are outside the modelled fragment and fail the
parse, which is conservative: no claim depends on them. -/
def unescChar (c : Char) : Option Char :=
  if c = '"' then some '"'
  else if c = '\\' then some '\\'
  else if c = '/' then some '/'
  else if c = 'n' then some '\n'
  else if c = 't' then some '\t'
  else if c = 'r' then some '\x0d'
  else none

/-- Body of a JSON string literal after the opening quote: returns the
decoded characters and the input after the closing quote. -/
def parseStrAux : List Char → Option (List Char × List Char)
  | [] => none
  | c :: rest =>
    if c = '"' then some ([], rest)
    else if c = '\\' then
      match rest with
      | [] => none
      | e :: rest' =>
        match unescChar e with
        | none => none
        | some d =>
          match parseStrAux rest' with
          | none => none
          | some (s, r) => some (d :: s, r)
    else
      match parseStrAux rest with
      | none => none
      | some (s, r) => some (c :: s, r)

/-- A JSON number restricted to the integral fragment: optional minus then
digits. A following '.', 'e' or 'E' fails the parse rather than misreading
a fractional number as its integer part. -/
def parseNumFrom (l : List Char) : Option (Int × List Char) :=
  let core : List Char → Option (Nat × List Char) := fun input =>
    match input.span isDigitChar with
    | ([], _) => none
    | (ds, r) =>
      match r with
      | c :: _ => if c = '.' ∨ c = 'e' ∨ c = 'E' then none else some (digitsToNat ds, r)
      | [] => some (digitsToNat ds, r)
  match l with
  | '-' :: rest =>
    match core rest with
    | some (n, r) => some (-(n : Int), r)
    | none => none
  | _ =>
    match core l with
    | some (n, r) => some ((n : Int), r)
    | none => none

/-- Parser modes: a single value, the fields of an object after its opening
brace, or the elements of an array after its opening bracket. One function
with a mode argument keeps the recursion structural in the fuel so that the
kernel can evaluate it. -/
inductive PMode where
  | val
  | fields
  | elems

/-- Fuel-indexed JSON parser core, modelling JSON.parse on the fragment
used by the telemetry envelopes (objects, arrays, strings with simple
escapes, integral numbers, booleans, null). In `fields` and `elems` mode
the returned value is the object or array being accumulated. -/
def parseCore : Nat → PMode → List Char → Option (JVal × List Char)
  | 0, _, _ => none
  | fuel + 1, .val, l =>
    match skipWs l with
    | [] => none
    | c :: rest =>
      if c = '\x7b' then
        match skipWs rest with
        | '\x7d' :: r => some (.jobj [], r)
        | r => parseCore fuel .fields r
      else if c = '[' then
        match skipWs rest with
        | ']' :: r => some (.jarr [], r)
        | r => parseCore fuel .elems r
      else if c = '"' then
        match parseStrAux rest with
        | some (s, r) => some (.jstr (String.mk s), r)
        | none => none
      else if c = 't' then
        if rest.take 3 = ['r', 'u', 'e'] then some (.jbool true, rest.drop 3) else none
      else if c = 'f' then
        if rest.take 4 = ['a', 'l', 's', 'e'] then some (.jbool false, rest.drop 4) else none
      else if c = 'n' then
        if rest.take 3 = ['u', 'l', 'l'] then some (.jnull, rest.drop 3) else none
      else
        match parseNumFrom (c :: rest) with
        | some (n, r) => some (.jnum n, r)
        | none => none
  | fuel + 1, .fields, l =>
    match skipWs l with
    | '"' :: rest =>
      match parseStrAux rest with
      | none => none
      | some (k, r1) =>
        match skipWs r1 with
        | ':' :: r2 =>
          match parseCore fuel .val r2 with
          | none => none
          | some (v, r3) =>
            match skipWs r3 with
            | ',' :: r4 =>
              match parseCore fuel .fields r4 with
              | some (.jobj fs, r5) => some (.jobj ((String.mk k, v) :: fs), r5)
              | _ => none
            | '\x7d' :: r4 => some (.jobj [(String.mk k, v)], r4)
            | _ => none
        | _ => none
    | _ => none
  | fuel + 1, .elems, l =>
    match parseCore fuel .val l with
    | none => none
    | some (v, r1) =>
      match skipWs r1 with
      | ',' :: r2 =>
        match parseCore fuel .elems r2 with
        | some (.jarr es, r3) => some (.jarr (v :: es), r3)
        | _ => none
      | ']' :: r2 => some (.jarr [v], r2)
      | _ => none

/-- JSON.parse on a character list: one value, then only whitespace. -/
def parseJsonChars (l : List Char) : Option JVal :=
  match parseCore (l.length + 1) .val l with
  | some (v, r) => if skipWs r = [] then some v else none
  | none => none

/-- JSON.parse of the modelled fragment: `none` models a thrown SyntaxError. -/
def parseJson (s : String) : Option JVal := parseJsonChars s.data

/-- Position record, from the Position type in src/src/MapView.tsx. The
TypeScript annotations promise strings and numbers, but the untyped runtime
assignments in the message handler can store any JSON value or `undefined`
in `devEui` and `devLocRadius`, so those are modelled as `Option JVal`.
Coordinates are only stored after a numeric check, so they are numbers. -/
structure Position where
  id : String
  devEui : Option JVal
  coords : Int × Int
  devLocRadius : Option JVal
  receivedAt : Option String
  receivedAtTs : Option Nat

/-- Identifier template from the message handler: the interpolated device
field, a dash, then the decimal receipt timestamp. -/
def mkId (s : String) (t : Nat) : String := s ++ "-" ++ natStr t

/-- Envelope selection shared by both source files:
`message.DevEUI_location ? message.DevEUI_location : message.DevEUI_uplink`.
Member access on a null message throws, which the error branch carries. -/
def selectEnvelope (message : JVal) : Except Unit (Option JVal) :=
  match getProp message "DevEUI_location" with
  | .error e => .error e
  | .ok locField =>
    if truthy locField then .ok locField else getProp message "DevEUI_uplink"

/-- Body of the front-end mqtt message handler after JSON.parse succeeded,
from src/src/MapView.tsx lines 299-333. `fmt` is the injected
formatTimestamp and `now` the injected Date.now() value. An `Except.error`
is a thrown TypeError, caught by the surrounding try/catch. -/
def decodeCore (fmt : Nat → String) (now : Nat) (message : JVal) :
    Except Unit (Option Position) :=
  match selectEnvelope message with
  | .error e => .error e
  | .ok none => .ok none
  | .ok (some msg) =>
    match getProp msg "DevLAT" with
    | .error e => .error e
    | .ok lat =>
      match getProp msg "DevLON" with
      | .error e => .error e
      | .ok lon =>
        match lat, lon with
        | some (.jnum la), some (.jnum lo) =>
          match getProp msg "devEui" with
          | .error e => .error e
          | .ok devEuiLower =>
            match getProp msg "DevEUI" with
            | .error e => .error e
            | .ok devEuiUpper =>
              match getProp msg "DevLocRadius" with
              | .error e => .error e
              | .ok radius =>
                .ok (some
                  { id := mkId (jsToStrOpt devEuiLower) now
                    devEui := devEuiUpper
                    coords := (la, lo)
                    devLocRadius := radius
                    receivedAt := some (fmt now)
                    receivedAtTs := some now })
        | _, _ => .ok none

/-- Complete decode step of one raw payload: JSON.parse, then the handler
body, with every thrown exception absorbed by the try/catch into a silent
discard. -/
def decodeMsg (fmt : Nat → String) (now : Nat) (raw : String) : Option Position :=
  match parseJson raw with
  | none => none
  | some message =>
    match decodeCore fmt now message with
    | .error _ => none
    | .ok r => r

/-- Effect of one inbound raw message on the position log:
`setMarkers(prev => [...prev, marker])` appends, a discard leaves the log
unchanged. -/
def ingestStep (fmt : Nat → String) (now : Nat) (log : List Position) (raw : String) :
    List Position :=
  match decodeMsg fmt now raw with
  | none => log
  | some p => log ++ [p]

/-- A session run: the position log after a sequence of (clock value,
raw payload) message events, starting from the given log. The initial log of
the source is the empty list. -/
def runSession (fmt : Nat → String) (events : List (Nat × String))
    (log : List Position) : List Position :=
  events.foldl (fun lg e => ingestStep fmt e.1 lg e.2) log

/-- The sort comparator of sortedMarkers, src/src/MapView.tsx lines 400-404,
verbatim: a record without receivedAtTs compares before anything (including
another record without one), otherwise the timestamps are subtracted. -/
def cmpPos (a b : Position) : Int :=
  match a.receivedAtTs with
  | none => -1
  | some ta =>
    match b.receivedAtTs with
    | some tb => (ta : Int) - (tb : Int)
    | none => 1

/-- The ECMAScript contract of `[...markers].sort(cmp)` on an arrival-tagged
log: the output is a permutation of the input, consecutive output elements
never compare positively, and elements that compare equal keep their
arrival order (the mandated stability). For two records that both lack
receivedAtTs the comparator answers -1 in both directions, so they never
compare equal and the contract permits either order; engines genuinely
differ on this case. -/
def IsJsSortOf (inp out : List (Nat × Position)) : Prop :=
  List.Perm inp out ∧
  List.Pairwise (fun x y => cmpPos x.2 y.2 ≤ 0) out ∧
  List.Pairwise (fun x y => cmpPos x.2 y.2 = 0 → x.1 ≤ y.1) out

/-- Trail segments from the sorted view, src/src/MapView.tsx lines 406-411:
consecutive coordinate pairs. -/
def segmentsOf : List Position → List ((Int × Int) × (Int × Int))
  | [] => []
  | [_] => []
  | a :: b :: rest => (a.coords, b.coords) :: segmentsOf (b :: rest)

/-- Latest marker, src/src/MapView.tsx line 412:
`sortedMarkers[sortedMarkers.length - 1]`, undefined on the empty list. -/
def latestOf (l : List Position) : Option Position := l.get? (l.length - 1)

/-- An action issued to the message bus by the subscription manager. -/
inductive BusAction where
  | unsub (topic : String)
  | sub (topic : String) (qos : Nat)

/-- The state cells touched by the resubscribe effect: the last confirmed
topic (lastSubscribedTopicRef, the activeTopic of the specification), the
status label and the last error string. -/
structure SubState where
  activeTopic : String
  status : String
  lastError : Option String

/-- The resubscribe effect of src/src/MapView.tsx lines 427-443, as a
function of whether a connected client exists, the desired topic, the
current state and the outcome the bus reports for the subscribe call
(`none` is success, `some e` failure with message e). Returns the updated
state and the ordered bus actions issued. -/
def resubscribe (connected : Bool) (desired : String) (st : SubState)
    (subErr : Option String) : SubState × List BusAction :=
  if ¬ connected then (st, [])
  else if st.activeTopic = desired then (st, [])
  else
    match subErr with
    | some e =>
      ({ st with status := "subscribe error", lastError := some e },
       [.unsub st.activeTopic, .sub desired 0])
    | none =>
      ({ st with activeTopic := desired, lastError := none },
       [.unsub st.activeTopic, .sub desired 0])

/-- The session cells driving reconnection, from src/src/MapView.tsx:
activeRef, shouldReconnectRef, reconnectTimerRef (as the delay of the
scheduled timer, if one is pending) and the status label. -/
structure Sess where
  active : Bool
  shouldReconnect : Bool
  timer : Option Nat
  status : String

/-- Events the reconnection logic reacts to: a transport close, the firing
of the scheduled reconnect timer, the manual disconnect and cancel buttons,
and an explicit connect request. -/
inductive SessEvent where
  | transportClose
  | timerFire
  | manualDisconnect
  | cancelConnect
  | connectReq

/-- The fixed reconnect delay of the close handler (milliseconds). -/
def RECONNECT_DELAY : Nat := 1500

/-- One step of the reconnection state machine, returning the new state and
how many fresh connection attempts (connectToEndpoint entries that pass the
activeRef guard) the step performs. The close handler schedules a timer
only when the session is active, the reconnect flag is set and no timer is
already pending; manual disconnect and cancel clear both the flag and any
pending timer; a connect request re-arms the flag. -/
def sessStep (s : Sess) (e : SessEvent) : Sess × Nat :=
  match e with
  | .transportClose =>
    if s.active ∧ s.shouldReconnect ∧ s.timer = none then
      ({ s with status := "disconnected", timer := some RECONNECT_DELAY }, 0)
    else
      ({ s with status := "disconnected" }, 0)
  | .timerFire =>
    match s.timer with
    | some _ =>
      ({ s with timer := none,
                status := if s.active then "connecting" else s.status },
       if s.active then 1 else 0)
    | none => (s, 0)
  | .manualDisconnect =>
    ({ s with shouldReconnect := false, timer := none,
              status := "disconnected (manual)" }, 0)
  | .cancelConnect =>
    ({ s with shouldReconnect := false, timer := none,
              status := "disconnected (cancelled)" }, 0)
  | .connectReq =>
    ({ s with shouldReconnect := true,
              status := "connecting" },
     if s.active then 1 else 0)

/-- Total number of connection attempts over a sequence of events. -/
def runAttempts (s : Sess) : List SessEvent → Nat
  | [] => 0
  | e :: rest =>
    let (s', n) := sessStep s e
    n + runAttempts s' rest

/-- A publish issued to the bus by the ingest bridge. -/
structure PubRec where
  topic : String
  message : String
  qos : Nat

/-- The ingest handler of src/backend/src/server.js lines 33-64, as a
function of whether the request content type is the JSON media type, the
parsed request body, the configured topic prefix, and the outcome the bus
reports for the publish (`none` success, `some e` failure). The result is
the HTTP status, the JSON response body and the publishes issued; an
`Except.error` is a synchronous TypeError escaping the handler, which
express turns into a 500 through its default error handler. -/
def handleIngest (isJsonCT : Bool) (payload : JVal) (pfx : String)
    (pubErr : Option String) : Except Unit (Nat × JVal × List PubRec) :=
  if ¬ isJsonCT then
    .ok (415, jobj [("error", jstr "Content-Type must be application/json")], [])
  else if ¬ truthy (some payload) then
    .ok (400, jobj [("error", jstr "Missing JSON body")], [])
  else
    match selectEnvelope payload with
    | .error e => .error e
    | .ok none =>
      .ok (200, jobj [("ok", jbool true), ("published", jbool false),
        ("reason", jstr "missing DevEUI_uplink or DevEUI_location data")], [])
    | .ok (some msg) =>
      match getProp msg "DevEUI" with
      | .error e => .error e
      | .ok none =>
        .ok (400, jobj [("ok", jbool false), ("published", jbool false),
          ("reason", jstr "missing DevEUI in DevEUI_uplink or DevEUI_location")], [])
      | .ok (some d) =>
        let rec0 : PubRec :=
          { topic := pfx ++ "/" ++ jsToStr d, message := stringify payload, qos := 0 }
        match pubErr with
        | some _ =>
          .ok (500, jobj [("error", jstr "Failed to publish to MQTT")], [rec0])
        | none =>
          .ok (200, jobj [("ok", jbool true)], [rec0])

/-- Is the value a JSON object. -/
def isJObj : JVal → Bool
  | .jobj _ => true
  | _ => false

/-- Helper for the identifier-uniqueness proof: the numeric value of the
trailing digit run of a string. On any identifier built by `mkId` it
recovers the receipt timestamp, because the decimal digits follow the last
dash and contain no dash themselves. -/
def tsOfId (s : String) : Nat :=
  digitsToNat ((s.data.reverse.takeWhile (fun c => isDigitChar c)).reverse)

/-- A conventional uplink envelope (integer coordinates), the README example
device identifier shortened. -/
def rawUplinkABC : String :=
  "\x7b\"DevEUI_uplink\":\x7b\"DevEUI\":\"ABC123\",\"DevLAT\":48,\"DevLON\":2\x7d\x7d"

/-- The same envelope value with whitespace after each colon and comma: the
same JSON value, different bytes. -/
def rawSpaced : String :=
  "\x7b\"DevEUI_uplink\": \x7b\"DevEUI\": \"ABC123\", \"DevLAT\": 48, \"DevLON\": 2\x7d\x7d"

/-- The parsed value of both rawUplinkABC and rawSpaced. -/
def vUplinkABC : JVal :=
  jobj [("DevEUI_uplink",
    jobj [("DevEUI", jstr "ABC123"), ("DevLAT", jnum 48), ("DevLON", jnum 2)])]

/-- An uplink envelope with coordinates but no device identifier. -/
def rawNoDevEui : String :=
  "\x7b\"DevEUI_uplink\":\x7b\"DevLAT\":1,\"DevLON\":2\x7d\x7d"

/-- A JSON body containing neither envelope shape. -/
def vFooBar : JVal := jobj [("foo", jstr "bar")]

/-- Position records without a receipt timestamp (the defensive branch of
the comparator). -/
def posU1 : Position :=
  { id := "u1", devEui := none, coords := (0, 0), devLocRadius := none,
    receivedAt := none, receivedAtTs := none }

/-- A second position record without a receipt timestamp. -/
def posU2 : Position :=
  { id := "u2", devEui := none, coords := (1, 1), devLocRadius := none,
    receivedAt := none, receivedAtTs := none }

/-- A position with receipt timestamp 5. -/
def posT5a : Position :=
  { id := "a", devEui := none, coords := (0, 0), devLocRadius := none,
    receivedAt := none, receivedAtTs := some 5 }

/-- Another position with receipt timestamp 5. -/
def posT5b : Position :=
  { id := "b", devEui := none, coords := (1, 1), devLocRadius := none,
    receivedAt := none, receivedAtTs := some 5 }

/-- A position with receipt timestamp 7. -/
def posT7 : Position :=
  { id := "c", devEui := none, coords := (2, 2), devLocRadius := none,
    receivedAt := none, receivedAtTs := some 7 }

/-- A connected session state: active, reconnect flag armed, no timer. -/
def sessConnected : Sess :=
  { active := true, shouldReconnect := true, timer := none, status := "connected" }

/-- C1: for a conventional uplink envelope with device identifier "ABC123",
numeric coordinates and injected clock 0, the decode step does produce one
Position whose devEui, coordinates, receivedAtTs and receivedAt match the
claim, but its id is "undefined-0": the handler builds the id from the
absent lowercase field msg.devEui (which interpolates as "undefined")
rather than from the device identifier msg.DevEUI, so the id does not equal
deviceId + "-" + receivedAtTs. -/
theorem c1_id_not_from_deviceId :
    decodeMsg (fun _ => "") 0 rawUplinkABC = some
      { id := "undefined-0", devEui := some (jstr "ABC123"), coords := (48, 2),
        devLocRadius := none, receivedAt := some "", receivedAtTs := some 0 } ∧
    "undefined-0" ≠ "ABC123" ++ "-" ++ natStr 0 :=
  ⟨rfl, by decide⟩

/-- C2 counterexample: a request body with whitespace between tokens parses
to the accepted uplink envelope, the handler accepts it and publishes to
the prefixed device topic at QoS 0, but the published bytes are the
JSON.stringify re-serialization of the parsed body, which differs from the
original request body, refuting the claim that the exact original bytes
are published. -/
theorem c2_counterexample :
    parseJson rawSpaced = some vUplinkABC ∧
    handleIngest true vUplinkABC "bee_map" none =
      .ok (200, jobj [("ok", jbool true)],
        [{ topic := "bee_map/ABC123", message := stringify vUplinkABC, qos := 0 }]) ∧
    stringify vUplinkABC ≠ rawSpaced :=
  ⟨rfl, rfl, by decide⟩

/-- C2 (amended): for every accepted envelope with a defined device
identifier, handleIngest publishes exactly one message to the topic
prefix + "/" + deviceId at QoS 0, whose bytes are the JSON.stringify
re-serialization of the parsed request body (byte-identical to the
original only when the original is already in that canonical form);
on publish success the response is 200 with body ok:true, and on publish
failure the response is 500. -/
theorem c2_publishes_reserialization :
    ∀ (payload : JVal) (pfx : String) (env d : JVal) (pubErr : Option String),
      selectEnvelope payload = .ok (some env) →
      getProp env "DevEUI" = .ok (some d) →
      handleIngest true payload pfx pubErr =
        .ok (match pubErr with
          | some _ => (500, jobj [("error", jstr "Failed to publish to MQTT")],
              [{ topic := pfx ++ "/" ++ jsToStr d, message := stringify payload,
                 qos := 0 }])
          | none => (200, jobj [("ok", jbool true)],
              [{ topic := pfx ++ "/" ++ jsToStr d, message := stringify payload,
                 qos := 0 }])) := by
  intro payload pfx env d pubErr hsel hdev
  have hobj : ∃ fs, payload = jobj fs := by
      cases payload <;> simp [selectEnvelope, getProp, truthy] at hsel ⊢
  obtain ⟨fs, rfl⟩ := hobj
  cases pubErr <;>
    simp [handleIngest, truthy, hsel, hdev]

/-- C2 witness: the amended theorem applied at a concrete accepted
envelope with a successful publish outcome. -/
theorem c2_publishes_reserialization_witness :
    handleIngest true vUplinkABC "bee_map" none =
      .ok (200, jobj [("ok", jbool true)],
        [{ topic := "bee_map" ++ "/" ++ jsToStr (jstr "ABC123"),
           message := stringify vUplinkABC, qos := 0 }]) := by
  exact c2_publishes_reserialization vUplinkABC "bee_map"
    (jobj [("DevEUI", jstr "ABC123"), ("DevLAT", jnum 48), ("DevLON", jnum 2)])
    (jstr "ABC123") none rfl rfl

/-- C8 counterexample: a JSON body containing neither envelope shape is
answered 200 with published:false, but the reason string the code sends is
"missing DevEUI_uplink or DevEUI_location data", not the "missing
envelope" the claim states. -/
theorem c8_counterexample :
    handleIngest true vFooBar "bee_map" none =
      .ok (200, jobj [("ok", jbool true), ("published", jbool false),
        ("reason", jstr "missing DevEUI_uplink or DevEUI_location data")], []) ∧
    "missing DevEUI_uplink or DevEUI_location data" ≠ "missing envelope" :=
  ⟨rfl, by decide⟩

/-- C8 (amended): handleIngest classifies requests as follows: a non-JSON
content type yields 415; a truthy JSON body whose envelope selection yields
undefined is answered 200 with ok:true, published:false and reason
"missing DevEUI_uplink or DevEUI_location data"; a selected envelope on
which the device-identifier access evaluates to undefined yields 400; and
in each of these classes no publish is issued. -/
theorem c8_classification :
    ∀ (payload : JVal) (pfx : String) (pubErr : Option String) (env : JVal),
      handleIngest false payload pfx pubErr =
        .ok (415, jobj [("error", jstr "Content-Type must be application/json")], []) ∧
      (truthy (some payload) = true → selectEnvelope payload = .ok none →
        handleIngest true payload pfx pubErr =
          .ok (200, jobj [("ok", jbool true), ("published", jbool false),
            ("reason", jstr "missing DevEUI_uplink or DevEUI_location data")], [])) ∧
      (selectEnvelope payload = .ok (some env) → getProp env "DevEUI" = .ok none →
        handleIngest true payload pfx pubErr =
          .ok (400, jobj [("ok", jbool false), ("published", jbool false),
            ("reason", jstr "missing DevEUI in DevEUI_uplink or DevEUI_location")], [])) := by
  intro payload pfx pubErr env
  refine ⟨by simp [handleIngest], ?_, ?_⟩
  · intro htr hsel
    simp [handleIngest, htr, hsel]
  · intro hsel hdev
    have hobj : ∃ fs, payload = jobj fs := by
      cases payload <;> simp [selectEnvelope, getProp, truthy] at hsel ⊢
    obtain ⟨fs, rfl⟩ := hobj
    simp [handleIngest, truthy, hsel, hdev]

/-- C8 witness: the amended classification applied at concrete inputs of
each class (here the missing-envelope class, with the other two conjuncts
instantiated as well). -/
theorem c8_classification_witness :
    handleIngest true vFooBar "bee_map" (some "publish boom") =
      .ok (200, jobj [("ok", jbool true), ("published", jbool false),
        ("reason", jstr "missing DevEUI_uplink or DevEUI_location data")], []) :=
  (c8_classification vFooBar "bee_map" (some "publish boom") jnull).2.1 rfl rfl

/-- C4: topic changes while connected first unsubscribe from the active
topic and then subscribe to the desired one; the active topic is updated
(and the error cleared) only on subscribe success; on failure the active
topic is kept and the error status and message are surfaced; and when the
desired topic equals the active one nothing is done at all. -/
theorem c4_resubscribe_contract :
    ∀ (st : SubState) (desired : String) (err : Option String),
      (st.activeTopic = desired → resubscribe true desired st err = (st, [])) ∧
      (st.activeTopic ≠ desired →
        (resubscribe true desired st err).2 =
          [BusAction.unsub st.activeTopic, BusAction.sub desired 0] ∧
        (resubscribe true desired st none).1 =
          { st with activeTopic := desired, lastError := none } ∧
        (∀ e, (resubscribe true desired st (some e)).1 =
          { st with status := "subscribe error", lastError := some e })) := by
  intro st desired err
  constructor
  · intro h
    simp [resubscribe, h]
  · intro h
    refine ⟨?_, ?_, ?_⟩
    · cases err <;> simp [resubscribe, h]
    · simp [resubscribe, h]
    · intro e
      simp [resubscribe, h]

/-- C4 witness: a failed resubscribe at concrete inputs preserves the
active topic and surfaces the error, and the action order is unsubscribe
then subscribe. -/
theorem c4_resubscribe_contract_witness :
    (resubscribe true "bee_map/other"
        { activeTopic := "bee_map/#", status := "connected", lastError := none }
        (some "boom")).2 =
      [BusAction.unsub "bee_map/#", BusAction.sub "bee_map/other" 0] ∧
    (resubscribe true "bee_map/other"
        { activeTopic := "bee_map/#", status := "connected", lastError := none }
        (some "boom")).1 =
      { activeTopic := "bee_map/#", status := "subscribe error",
        lastError := some "boom" } := by
  have h := (c4_resubscribe_contract
    { activeTopic := "bee_map/#", status := "connected", lastError := none }
    "bee_map/other" (some "boom")).2 (by decide)
  exact ⟨h.1, h.2.2 "boom"⟩

/-- Helper for C5: once the reconnect flag is cleared and no timer is
pending, any sequence of transport closes and timer fires performs zero
connection attempts and re-establishes the same condition. -/
theorem runAttempts_zero_of_cleared :
    ∀ (evs : List SessEvent) (s : Sess),
      s.shouldReconnect = false → s.timer = none →
      (∀ e ∈ evs, e = SessEvent.transportClose ∨ e = SessEvent.timerFire) →
      runAttempts s evs = 0 := by
  intro evs
  induction evs with
  | nil => intro s _ _ _; rfl
  | cons e rest ih =>
    intro s hflag htimer hevs
    rcases hevs e (by simp) with he | he <;> subst he
    · have hstep : sessStep s .transportClose = ({ s with status := "disconnected" }, 0) := by
        simp [sessStep, hflag]
      simp only [runAttempts, hstep, Nat.zero_add]
      exact ih _ (by simp [hflag]) (by simp [htimer]) (fun e' h => hevs e' (by simp [h]))
    · have hstep : sessStep s .timerFire = (s, 0) := by
        simp [sessStep, htimer]
      simp only [runAttempts, hstep, Nat.zero_add]
      exact ih _ hflag htimer (fun e' h => hevs e' (by simp [h]))

/-- C5 counterexample: from a connected session with the reconnect flag
armed, a first transport close schedules the reconnect timer; a second
close arriving while that timer is still pending leaves the state unchanged
apart from the status label and schedules nothing new, so that close event
results in zero newly scheduled connection attempts even though the flag is
true — refuting the never-zero part of the claim. -/
theorem c5_counterexample :
    (sessStep sessConnected .transportClose).1.shouldReconnect = true ∧
    (sessStep sessConnected .transportClose).1.timer = some RECONNECT_DELAY ∧
    sessStep (sessStep sessConnected .transportClose).1 .transportClose =
      ({ (sessStep sessConnected .transportClose).1 with status := "disconnected" }, 0) ∧
    runAttempts (sessStep sessConnected .transportClose).1
      [SessEvent.transportClose, SessEvent.timerFire] = 1 := by
  refine ⟨rfl, rfl, ?_, rfl⟩
  simp [sessStep, sessConnected, RECONNECT_DELAY]

/-- C5 (amended): a transport close received while the session is active,
the reconnect flag is true and no reconnect timer is pending schedules
exactly one connection attempt, which fires after the fixed 1500 ms delay
(the close itself attempts nothing, the timer fire attempts exactly once
and clears the timer); a close arriving while a timer is already pending
schedules nothing new; and after a manual disconnect or cancel has cleared
the flag, no sequence of closes and timer fires ever performs an attempt. -/
theorem c5_reconnect_policy :
    ∀ (s : Sess),
      (s.active = true → s.shouldReconnect = true → s.timer = none →
        sessStep s .transportClose =
          ({ s with status := "disconnected", timer := some RECONNECT_DELAY }, 0) ∧
        sessStep ({ s with status := "disconnected", timer := some RECONNECT_DELAY } : Sess) .timerFire =
          ({ s with status := "connecting", timer := none }, 1)) ∧
      (s.timer ≠ none →
        (sessStep s .transportClose).1.timer = s.timer ∧
        (sessStep s .transportClose).2 = 0) ∧
      (∀ evs : List SessEvent,
        (∀ e ∈ evs, e = SessEvent.transportClose ∨ e = SessEvent.timerFire) →
        runAttempts (sessStep s .manualDisconnect).1 evs = 0 ∧
        runAttempts (sessStep s .cancelConnect).1 evs = 0) := by
  intro s
  refine ⟨?_, ?_, ?_⟩
  · intro hact hflag htimer
    constructor
    · simp [sessStep, hact, hflag, htimer]
    · simp [sessStep, hact]
  · intro htimer
    constructor <;> simp [sessStep, htimer]
  · intro evs hevs
    constructor <;>
      exact runAttempts_zero_of_cleared evs _ (by simp [sessStep]) (by simp [sessStep]) hevs

/-- C5 witness: the amended policy applied at the concrete connected state
and a concrete event sequence. -/
theorem c5_reconnect_policy_witness :
    sessStep sessConnected .transportClose =
      ({ sessConnected with status := "disconnected",
                            timer := some RECONNECT_DELAY }, 0) ∧
    runAttempts (sessStep sessConnected .manualDisconnect).1
      [SessEvent.transportClose, SessEvent.timerFire, SessEvent.transportClose] = 0 := by
  have h := c5_reconnect_policy sessConnected
  exact ⟨(h.1 rfl rfl rfl).1,
    (h.2.2 [SessEvent.transportClose, SessEvent.timerFire, SessEvent.transportClose]
      (by intro e he; fin_cases he <;> simp)).1⟩

/-- C3 counterexample: for the two-record log of positions that both lack a
receivedAtTs, the reversed output satisfies the full ECMAScript sort
contract for the source comparator (it is a permutation, consecutive
elements never compare positively since the comparator answers -1 for both
orders of the pair, and stability is vacuous because the pair never
compares equal) — yet the later arrival precedes the earlier one, refuting
the claim that two records lacking a timestamp retain their relative
arrival order. -/
theorem c3_counterexample :
    IsJsSortOf ([posU1, posU2].enum) [(1, posU2), (0, posU1)] ∧
    ¬ List.Pairwise (fun x y : Nat × Position =>
        x.2.receivedAtTs = none → y.2.receivedAtTs = none → x.1 ≤ y.1)
      [(1, posU2), (0, posU1)] := by
  refine ⟨⟨List.Perm.swap (1, posU2) (0, posU1) [], ?_, ?_⟩, ?_⟩
  · simp [List.pairwise_cons, cmpPos, posU1, posU2]
  · simp [List.pairwise_cons, cmpPos, posU1, posU2]
  · simp [List.pairwise_cons, posU1, posU2]

/-- C3 (amended): every output satisfying the sort contract of the source
comparator is a permutation of the log ordered by receivedAtTs ascending in
which every record lacking a receivedAtTs precedes every record having one,
and any two records with equal receivedAtTs retain their relative arrival
order; two records both lacking a receivedAtTs may however appear in either
order, since the inconsistent comparator never reports them equal. -/
theorem c3_sort_contract :
    ∀ (l : List Position) (out : List (Nat × Position)),
      IsJsSortOf l.enum out →
      List.Perm (out.map Prod.snd) l ∧
      List.Pairwise (fun x y : Nat × Position => cmpPos x.2 y.2 ≤ 0) out ∧
      List.Pairwise (fun x y : Nat × Position =>
        y.2.receivedAtTs = none → x.2.receivedAtTs = none) out ∧
      List.Pairwise (fun x y : Nat × Position => ∀ t : Nat,
        x.2.receivedAtTs = some t → y.2.receivedAtTs = some t → x.1 ≤ y.1) out := by
  intro l out h
  obtain ⟨hperm, hsorted, hstable⟩ := h
  refine ⟨?_, hsorted, ?_, ?_⟩
  · have hm := hperm.map Prod.snd
    rw [List.enum_map_snd] at hm
    exact hm.symm
  · refine hsorted.imp ?_
    intro a b hle hb
    cases hx : a.2.receivedAtTs with
    | none => rfl
    | some ta =>
      simp [cmpPos, hx, hb] at hle
  · refine hstable.imp ?_
    intro a b hst t hx hy
    apply hst
    simp [cmpPos, hx, hy]

/-- C3 witness: the amended contract applied to a concrete log with one
timestampless record and one timestamped record, sorted identically. -/
theorem c3_sort_contract_witness :
    List.Perm ([(0, posU1), (1, posT5a)].map Prod.snd) [posU1, posT5a] ∧
    List.Pairwise (fun x y : Nat × Position => cmpPos x.2 y.2 ≤ 0)
      [(0, posU1), (1, posT5a)] ∧
    List.Pairwise (fun x y : Nat × Position =>
      y.2.receivedAtTs = none → x.2.receivedAtTs = none)
      [(0, posU1), (1, posT5a)] ∧
    List.Pairwise (fun x y : Nat × Position => ∀ t : Nat,
      x.2.receivedAtTs = some t → y.2.receivedAtTs = some t → x.1 ≤ y.1)
      [(0, posU1), (1, posT5a)] := by
  refine c3_sort_contract [posU1, posT5a] [(0, posU1), (1, posT5a)]
    ⟨List.Perm.refl _, ?_, ?_⟩
  · simp [List.pairwise_cons, cmpPos, posU1, posT5a]
  · simp [List.pairwise_cons, cmpPos, posU1, posT5a]

/-- Helper for C7: the number of trail segments is one less than the number
of records (zero for an empty log). -/
theorem segmentsOf_length : ∀ m : List Position, (segmentsOf m).length = m.length - 1
  | [] => rfl
  | [_] => rfl
  | a :: b :: rest => by
    have ih := segmentsOf_length (b :: rest)
    simp only [segmentsOf, List.length_cons] at ih ⊢
    omega

/-- Helper for C7: the i-th segment connects the i-th and (i+1)-th records. -/
theorem segmentsOf_get? : ∀ (m : List Position) (i : Nat) (a b : Position),
    m.get? i = some a → m.get? (i + 1) = some b →
    (segmentsOf m).get? i = some (a.coords, b.coords)
  | [], i, a, b, ha, _ => by simp at ha
  | [x], i, a, b, ha, hb => by
    cases i <;> simp at ha hb
  | x :: y :: rest, 0, a, b, ha, hb => by
    simp at ha hb
    simp [segmentsOf, ha, hb]
  | x :: y :: rest, i + 1, a, b, ha, hb => by
    have ih := segmentsOf_get? (y :: rest) i a b (by simpa using ha) (by simpa using hb)
    simpa [segmentsOf] using ih

/-- C7: for every log state and every output of the sort contract, the
trail has max(0, n-1) segments, segment i connects the coordinates of the
i-th and (i+1)-th sorted records, and the latest marker is the last element
of the sorted view, absent exactly when the log is empty. -/
theorem c7_trail_and_latest :
    ∀ (l : List Position) (out : List (Nat × Position)),
      IsJsSortOf l.enum out →
      (segmentsOf (out.map Prod.snd)).length = l.length - 1 ∧
      (∀ i a b, (out.map Prod.snd).get? i = some a →
        (out.map Prod.snd).get? (i + 1) = some b →
        (segmentsOf (out.map Prod.snd)).get? i = some (a.coords, b.coords)) ∧
      latestOf (out.map Prod.snd) = (out.map Prod.snd).getLast? ∧
      (l = [] → latestOf (out.map Prod.snd) = none) := by
  intro l out h
  obtain ⟨hperm, _, _⟩ := h
  have hlen : out.length = l.length := by
    have := hperm.length_eq
    simpa using this.symm
  refine ⟨?_, ?_, ?_, ?_⟩
  · rw [segmentsOf_length]
    simp [hlen]
  · intro i a b ha hb
    exact segmentsOf_get? _ i a b ha hb
  · rw [latestOf, List.getLast?_eq_get?]
  · intro hnil
    subst hnil
    have : out = [] := by
      simpa using hperm.symm.eq_nil
    subst this
    rfl

/-- C7 witness: the theorem applied to a concrete two-record log sorted
identically: one segment, connecting the two coordinates, and the latest
marker is the second record. -/
theorem c7_trail_and_latest_witness :
    (segmentsOf ([(0, posT5a), (1, posT7)].map Prod.snd)).length =
      [posT5a, posT7].length - 1 ∧
    (segmentsOf ([(0, posT5a), (1, posT7)].map Prod.snd)).get? 0 =
      some (posT5a.coords, posT7.coords) ∧
    latestOf ([(0, posT5a), (1, posT7)].map Prod.snd) = some posT7 := by
  have h := c7_trail_and_latest [posT5a, posT7] [(0, posT5a), (1, posT7)]
    ⟨List.Perm.refl _, by simp [List.pairwise_cons, cmpPos, posT5a, posT7],
     by simp [List.pairwise_cons, cmpPos, posT5a, posT7]⟩
  refine ⟨h.1, h.2.1 0 posT5a posT7 rfl rfl, ?_⟩
  rw [h.2.2.1]
  rfl

/-- C6: for every raw payload that fails to parse as JSON, or parses to an
object whose envelope selection yields undefined, or whose selected
envelope lacks a numeric DevLAT or DevLON, the decode step produces no
Position and the position log is unchanged. Exceptions cannot escape: every
thrown TypeError and parse error is absorbed into the silent discard by
construction of decodeMsg. -/
theorem c6_decode_discards :
    ∀ (fmt : Nat → String) (now : Nat) (raw : String) (log : List Position),
      (parseJson raw = none ∨
        (∃ m, parseJson raw = some m ∧ isJObj m = true ∧
          selectEnvelope m = .ok none) ∨
        (∃ m env, parseJson raw = some m ∧ selectEnvelope m = .ok (some env) ∧
          ((¬ ∃ la : Int, getProp env "DevLAT" = .ok (some (jnum la))) ∨
           (¬ ∃ lo : Int, getProp env "DevLON" = .ok (some (jnum lo)))))) →
      decodeMsg fmt now raw = none ∧ ingestStep fmt now log raw = log := by
  intro fmt now raw log h
  have hd : decodeMsg fmt now raw = none := by
    rcases h with hp | ⟨m, hp, _, hsel⟩ | ⟨m, env, hp, hsel, hbad⟩
    · simp [decodeMsg, hp]
    · simp [decodeMsg, hp, decodeCore, hsel]
    · simp only [decodeMsg, hp]
      cases hlat : getProp env "DevLAT" with
      | error e => simp [decodeCore, hsel, hlat]
      | ok lat =>
        cases hlon : getProp env "DevLON" with
        | error e => simp [decodeCore, hsel, hlat, hlon]
        | ok lon =>
          rcases lat with _ | v
          · simp [decodeCore, hsel, hlat, hlon]
          · cases v with
            | jnull => simp [decodeCore, hsel, hlat, hlon]
            | jbool b => simp [decodeCore, hsel, hlat, hlon]
            | jstr s => simp [decodeCore, hsel, hlat, hlon]
            | jarr es => simp [decodeCore, hsel, hlat, hlon]
            | jobj gs => simp [decodeCore, hsel, hlat, hlon]
            | jnum la =>
              rcases hbad with hb | hb
              · exact absurd ⟨la, hlat⟩ hb
              · rcases lon with _ | w
                · simp [decodeCore, hsel, hlat, hlon]
                · cases w with
                  | jnull => simp [decodeCore, hsel, hlat, hlon]
                  | jbool b => simp [decodeCore, hsel, hlat, hlon]
                  | jstr s => simp [decodeCore, hsel, hlat, hlon]
                  | jarr es => simp [decodeCore, hsel, hlat, hlon]
                  | jobj gs => simp [decodeCore, hsel, hlat, hlon]
                  | jnum lo => exact absurd ⟨lo, hlon⟩ hb
  exact ⟨hd, by simp [ingestStep, hd]⟩

/-- C6 witness: the theorem applied to an unparsable payload and a concrete
log. -/
theorem c6_decode_discards_witness :
    decodeMsg (fun _ => "") 3 "nope" = none ∧
    ingestStep (fun _ => "") 3 [posT5a] "nope" = [posT5a] :=
  c6_decode_discards (fun _ => "") 3 "nope" [posT5a] (Or.inl rfl)

/-- C10: an envelope with numeric coordinates but no DevEUI member is still
decoded and appended — the missing device identifier is not a discard
condition — and the stored devEui is undefined. -/
theorem c10_missing_deveui_still_logged :
    ∀ (fmt : Nat → String) (now : Nat) (raw : String) (log : List Position)
      (m env : JVal) (la lo : Int),
      parseJson raw = some m →
      selectEnvelope m = .ok (some env) →
      getProp env "DevLAT" = .ok (some (jnum la)) →
      getProp env "DevLON" = .ok (some (jnum lo)) →
      getProp env "DevEUI" = .ok none →
      ∃ p : Position, decodeMsg fmt now raw = some p ∧ p.devEui = none ∧
        ingestStep fmt now log raw = log ++ [p] := by
  intro fmt now raw log m env la lo hp hsel hlat hlon hdev
  have henv : ∃ fs, env = jobj fs := by
    cases env <;> simp [getProp] at hlat ⊢
  obtain ⟨fs, rfl⟩ := henv
  have hlat' : jlookup "DevLAT" fs = some (jnum la) := by
    simpa [getProp] using hlat
  have hlon' : jlookup "DevLON" fs = some (jnum lo) := by
    simpa [getProp] using hlon
  have hdev' : jlookup "DevEUI" fs = none := by
    simpa [getProp] using hdev
  have hd : decodeMsg fmt now raw = some
      { id := mkId (jsToStrOpt (jlookup "devEui" fs)) now
        devEui := none
        coords := (la, lo)
        devLocRadius := jlookup "DevLocRadius" fs
        receivedAt := some (fmt now)
        receivedAtTs := some now } := by
    simp [decodeMsg, hp, decodeCore, hsel, getProp, hlat', hlon', hdev']
  exact ⟨_, hd, rfl, by simp [ingestStep, hd]⟩

/-- C10 witness: the theorem applied to the concrete identifier-less uplink
envelope and the empty log. -/
theorem c10_missing_deveui_still_logged_witness :
    ∃ p : Position, decodeMsg (fun _ => "") 9 rawNoDevEui = some p ∧
      p.devEui = none ∧
      ingestStep (fun _ => "") 9 [] rawNoDevEui = [] ++ [p] :=
  c10_missing_deveui_still_logged (fun _ => "") 9 rawNoDevEui []
    (jobj [("DevEUI_uplink", jobj [("DevLAT", jnum 1), ("DevLON", jnum 2)])])
    (jobj [("DevLAT", jnum 1), ("DevLON", jnum 2)]) 1 2 rfl rfl rfl rfl rfl

/-- Digit characters of small naturals are decimal digits. -/
theorem digitChar_isDigit : ∀ d : Nat, d < 10 → isDigitChar (Nat.digitChar d) = true := by
  decide

/-- Digit characters of small naturals evaluate back to their value. -/
theorem digitChar_val : ∀ d : Nat, d < 10 → digitVal (Nat.digitChar d) = d := by
  decide

/-- Every character produced by natDigitsAux is a decimal digit. -/
theorem natDigitsAux_all_digits :
    ∀ (fuel n : Nat), ∀ c ∈ natDigitsAux fuel n, isDigitChar c = true := by
  intro fuel
  induction fuel with
  | zero => intro n c hc; simp [natDigitsAux] at hc
  | succ fuel ih =>
    intro n c hc
    by_cases hn : n < 10
    · simp [natDigitsAux, hn] at hc
      subst hc
      exact digitChar_isDigit n hn
    · simp [natDigitsAux, hn] at hc
      rcases hc with hc | hc
      · exact ih _ c hc
      · subst hc
        exact digitChar_isDigit _ (Nat.mod_lt _ (by omega))

/-- Appending one digit multiplies the value by ten and adds the digit. -/
theorem digitsToNat_append_one (l : List Char) (c : Char) :
    digitsToNat (l ++ [c]) = digitsToNat l * 10 + digitVal c := by
  simp [digitsToNat, List.foldl_append]

/-- The decimal digit string of n evaluates back to n. -/
theorem digitsToNat_natDigitsAux :
    ∀ (fuel n : Nat), n < fuel → digitsToNat (natDigitsAux fuel n) = n := by
  intro fuel
  induction fuel with
  | zero => intro n hn; omega
  | succ fuel ih =>
    intro n hn
    by_cases h10 : n < 10
    · simp [natDigitsAux, h10, digitsToNat, digitVal]
      have := digitChar_val n h10
      simp [digitVal] at this
      omega
    · have hdiv : n / 10 < fuel := by omega
      simp only [natDigitsAux, h10, if_false]
      rw [digitsToNat_append_one, ih _ hdiv]
      have := digitChar_val (n % 10) (Nat.mod_lt _ (by omega))
      omega

/-- takeWhile runs through a prefix on which the predicate always holds. -/
theorem takeWhile_append_all (p : Char → Bool) :
    ∀ (l₁ l₂ : List Char), (∀ c ∈ l₁, p c = true) →
      List.takeWhile p (l₁ ++ l₂) = l₁ ++ List.takeWhile p l₂ := by
  intro l₁
  induction l₁ with
  | nil => intro l₂ _; simp
  | cons a t ih =>
    intro l₂ h
    simp only [List.cons_append, List.takeWhile_cons]
    rw [h a (by simp), ih l₂ (fun c hc => h c (by simp [hc]))]
    simp

/-- Every character of a decimal digit string is a decimal digit. -/
theorem natDigits_all_digits (n : Nat) : ∀ c ∈ natDigits n, isDigitChar c = true :=
  natDigitsAux_all_digits (n + 1) n

/-- The decimal digit string of n evaluates back to n. -/
theorem digitsToNat_natDigits (n : Nat) : digitsToNat (natDigits n) = n :=
  digitsToNat_natDigitsAux (n + 1) n (by omega)

/-- The trailing digit run of an identifier built by mkId recovers its
timestamp: the digits follow the final dash and contain no dash. -/
theorem tsOfId_mkId (s : String) (t : Nat) : tsOfId (mkId s t) = t := by
  have hdata : (mkId s t).data = s.data ++ ('-' :: natDigits t) := by
    simp [mkId, natStr, String.data_append]
  rw [tsOfId, hdata]
  simp only [List.reverse_append, List.reverse_cons, List.append_assoc,
    List.singleton_append]
  rw [takeWhile_append_all (fun c => isDigitChar c) ((natDigits t).reverse)
    ('-' :: s.data.reverse)
    (fun c hc => natDigits_all_digits t c (List.mem_reverse.mp hc))]
  have hstop : List.takeWhile (fun c => isDigitChar c) ('-' :: s.data.reverse) = [] := by
    rw [List.takeWhile_cons]
    have hdash : isDigitChar '-' = false := by decide
    simp [hdash]
  rw [hstop, List.append_nil, List.reverse_reverse]
  exact digitsToNat_natDigits t

/-- Identifiers built by mkId agree only when their timestamps agree. -/
theorem mkId_ts_inj (s₁ : String) (t₁ : Nat) (s₂ : String) (t₂ : Nat)
    (h : mkId s₁ t₁ = mkId s₂ t₂) : t₁ = t₂ := by
  have := congrArg tsOfId h
  rwa [tsOfId_mkId, tsOfId_mkId] at this

/-- Every Position produced by the decode handler carries the injected
clock value as its receivedAtTs and an identifier of the mkId shape built
from that same clock value. -/
theorem decodeCore_shape :
    ∀ (fmt : Nat → String) (now : Nat) (m : JVal) (q : Position),
      decodeCore fmt now m = .ok (some q) →
      q.receivedAtTs = some now ∧ ∃ s, q.id = mkId s now := by
  intro fmt now m q h
  unfold decodeCore at h
  repeat' split at h
  all_goals try exact Except.noConfusion h
  all_goals injection h with h1
  all_goals try exact Option.noConfusion h1
  all_goals injection h1 with h2
  all_goals subst h2
  all_goals exact ⟨rfl, _, rfl⟩

/-- Lifting of decodeCore_shape through JSON.parse and the try/catch. -/
theorem decodeMsg_shape :
    ∀ (fmt : Nat → String) (now : Nat) (raw : String) (p : Position),
      decodeMsg fmt now raw = some p →
      p.receivedAtTs = some now ∧ ∃ s, p.id = mkId s now := by
  intro fmt now raw p h
  unfold decodeMsg at h
  cases hp : parseJson raw with
  | none => simp [hp] at h
  | some m =>
    simp only [hp] at h
    cases hc : decodeCore fmt now m with
    | error e => simp [hc] at h
    | ok r =>
      simp only [hc] at h
      subst h
      exact decodeCore_shape fmt now m p hc

/-- Helper for C9: along any run whose injected clock values strictly
increase and whose starting log already satisfies the invariant (each
record's identifier embeds its own timestamp and all timestamps precede
the pending clock values), the final log has pairwise-distinct identifiers
and strictly increasing receivedAtTs values. -/
theorem runSession_good :
    ∀ (fmt : Nat → String) (events : List (Nat × String)) (log : List Position),
      List.Pairwise (fun a b : Nat => a < b) (events.map Prod.fst) →
      (∀ p ∈ log, ∃ s t, p.id = mkId s t ∧ p.receivedAtTs = some t ∧
        ∀ e ∈ events, t < e.1) →
      ((log.map Position.id).Nodup) →
      List.Pairwise (fun a b : Nat => a < b) (log.filterMap Position.receivedAtTs) →
      ((runSession fmt events log).map Position.id).Nodup ∧
      List.Pairwise (fun a b : Nat => a < b)
        ((runSession fmt events log).filterMap Position.receivedAtTs) := by
  intro fmt events
  induction events with
  | nil =>
    intro log _ _ hnd hpw
    exact ⟨hnd, hpw⟩
  | cons ev rest ih =>
    intro log hclk hwf hnd hpw
    obtain ⟨now, raw⟩ := ev
    have hclk' : List.Pairwise (fun a b : Nat => a < b) (rest.map Prod.fst) :=
      (List.pairwise_cons.mp hclk).2
    have hnowlt : ∀ e ∈ rest, now < e.1 := by
      intro e he
      exact (List.pairwise_cons.mp hclk).1 e.1 (List.mem_map_of_mem Prod.fst he)
    cases hdec : decodeMsg fmt now raw with
    | none =>
      refine ih (ingestStep fmt now log raw) hclk' ?_ ?_ ?_ <;>
        simp only [ingestStep, hdec]
      · intro p hp
        obtain ⟨s, t, hid, hts, hbound⟩ := hwf p hp
        exact ⟨s, t, hid, hts, fun e he => hbound e (by simp [he])⟩
      · exact hnd
      · exact hpw
    | some p =>
      obtain ⟨hts, s, hid⟩ := decodeMsg_shape fmt now raw p hdec
      refine ih (ingestStep fmt now log raw) hclk' ?_ ?_ ?_ <;>
        simp only [ingestStep, hdec]
      · intro q hq
        rcases List.mem_append.mp hq with hq | hq
        · obtain ⟨s', t', hid', hts', hbound⟩ := hwf q hq
          exact ⟨s', t', hid', hts', fun e he => hbound e (by simp [he])⟩
        · have hqp : q = p := by simpa using hq
          subst hqp
          exact ⟨s, now, hid, hts, hnowlt⟩
      · have hnotin : Position.id p ∉ log.map Position.id := by
          intro hmem
          obtain ⟨q, hq, hqid⟩ := List.mem_map.mp hmem
          obtain ⟨s', t', hid', hts', hbound⟩ := hwf q hq
          have hlt : t' < now := hbound (now, raw) (by simp)
          have heq : mkId s' t' = mkId s now := by
            rw [← hid', hqid, hid]
          have := mkId_ts_inj s' t' s now heq
          omega
        simp [List.nodup_append, hnd, hnotin]
      · rw [List.filterMap_append]
        have hone : List.filterMap Position.receivedAtTs [p] = [now] := by
          simp [hts]
        rw [hone, List.pairwise_append]
        refine ⟨hpw, by simp, ?_⟩
        intro a ha c hc
        have hc' : c = now := by simpa using hc
        obtain ⟨q, hq, hqts⟩ := List.mem_filterMap.mp ha
        obtain ⟨s', t', hid', hts', hbound⟩ := hwf q hq
        have hta : t' = a := by
          rw [hts'] at hqts
          exact Option.some.inj hqts
        have hlt : t' < now := hbound (now, raw) (by simp)
        omega

/-- C9 counterexample: Date.now only guarantees a non-decreasing clock, so
two messages decoded within the same millisecond carry equal injected clock
values. Running two conventional uplink envelopes at the same clock value 0
appends two Position records with the identical identifier "undefined-0"
and with equal (hence not increasing) receivedAtTs values — refuting both
the id-uniqueness and the monotonicity conjunct of the claim on a
reachable execution the code does nothing to prevent. -/
theorem c9_counterexample :
    (runSession (fun _ => "") [(0, rawUplinkABC), (0, rawUplinkABC)] []).map
        Position.id = ["undefined-0", "undefined-0"] ∧
    (runSession (fun _ => "") [(0, rawUplinkABC), (0, rawUplinkABC)] []).filterMap
        Position.receivedAtTs = [0, 0] ∧
    ¬ ((runSession (fun _ => "") [(0, rawUplinkABC), (0, rawUplinkABC)] []).map
        Position.id).Nodup := by
  refine ⟨rfl, rfl, fun h => ?_⟩
  have h' : (["undefined-0", "undefined-0"] : List String).Nodup := h
  simp at h'

/-- C9 (amended): within a session started from the empty log, on every run
whose injected clock values strictly increase across message events, no two
appended Position records carry the same identifier and the receivedAtTs
values of the log strictly increase in decode order; when the clock does
not advance between two messages, receivedAtTs repeats and identifiers can
collide. -/
theorem c9_ids_unique_ts_monotone :
    ∀ (fmt : Nat → String) (events : List (Nat × String)),
      List.Pairwise (fun a b : Nat => a < b) (events.map Prod.fst) →
      ((runSession fmt events []).map Position.id).Nodup ∧
      List.Pairwise (fun a b : Nat => a < b)
        ((runSession fmt events []).filterMap Position.receivedAtTs) := by
  intro fmt events hclk
  exact runSession_good fmt events [] hclk (by simp) (by simp) (by simp)

/-- C9 witness: the theorem applied to a concrete two-message run with
clock values 0 and 1. -/
theorem c9_ids_unique_ts_monotone_witness :
    ((runSession (fun _ => "") [(0, rawUplinkABC), (1, rawNoDevEui)] []).map
        Position.id).Nodup ∧
    List.Pairwise (fun a b : Nat => a < b)
      ((runSession (fun _ => "") [(0, rawUplinkABC), (1, rawNoDevEui)]
        []).filterMap Position.receivedAtTs) :=
  c9_ids_unique_ts_monotone (fun _ => "") [(0, rawUplinkABC), (1, rawNoDevEui)]
    (by decide)
